import Mathlib

/-!
Verification development for the Myanmar News auto poster (`src/main.py`).

The script loads a persisted set of already-posted article ids
(`load_seen_ids` / `save_seen_ids`), fetches RSS entries per configured
source, selects the first entry whose derived id is not in the seen set
(`choose_new_entry`, inlined source loop in `main`), optionally fetches the
article body, builds a prompt (`build_prompt_for_article`), calls the Gemini
REST API (`call_gemini_generate_content`), splits the output
(`split_title_and_body_from_gemini`), posts to Hatena Blog
(`post_to_hatena`), and only then adds the id to the seen set and saves it.

External collaborators (network, HTML parsing) are inputs of the model:
the feed contents per source, the extracted article text, the Gemini HTTP
response and the Hatena HTTP outcome are supplied in a `Collab` record.
Observable actions (network calls, credential checks, the publish success
and each write of the seen file) are recorded in an event trace.
-/

/-- One feed entry as `feedparser` exposes it to the script.  The script
reads attributes via `getattr(e, "id", None)` / `getattr(e, "link", None)` /
`getattr(e, "title", "")` / `getattr(e, "summary", "")`; a missing or empty
attribute is falsy either way, so both are modelled as `""`.
Field order: id, link, title, summary. -/
structure Entry where
  id : String
  link : String
  title : String
  summary : String
deriving DecidableEq, Repr

/-- State of the persisted seen file: absent, unparseable JSON, a JSON list
of ids, a JSON dict with an `ids` key, or parseable JSON of another shape. -/
inductive FileState where
  | missing : FileState
  | malformed : FileState
  | jsonList (ids : List String) : FileState
  | jsonDictIds (ids : List String) : FileState
  | otherShape : FileState
deriving DecidableEq, Repr

/-- Observable actions of one run, in program order.  `netFetchFeed` is
`feedparser.parse` for one source, `netFetchArticle` is the `requests.get`
of the article body, `netGenCall` is the Gemini POST, `netPubCall` is the
Hatena POST, `pubSuccess` marks `raise_for_status` passing on the Hatena
response, and `saveSeen` records each call of `save_seen_ids` together with
the file contents it writes (including the empty file that `load_seen_ids`
creates when the file is missing). -/
inductive Event where
  | netFetchFeed (src : String) : Event
  | netFetchArticle (url : String) : Event
  | credCheckGemini (present : Bool) : Event
  | netGenCall : Event
  | credCheckHatena (present : Bool) : Event
  | netPubCall : Event
  | pubSuccess : Event
  | saveSeen (file : FileState) : Event
deriving DecidableEq, Repr

/-- Gemini HTTP response as far as `call_gemini_generate_content` inspects
it: an error status (so `raise_for_status` raises; 429 is the rate-limit /
quota case), a 200 body with no candidates, no parts, or the concatenated
text of the parts. -/
inductive GenApiResp where
  | httpErr (status : Nat) : GenApiResp
  | noCandidates : GenApiResp
  | noParts : GenApiResp
  | text (t : String) : GenApiResp
deriving DecidableEq, Repr

/-- The exceptions `call_gemini_generate_content` can raise. -/
inductive GenError where
  | missingApiKey : GenError
  | httpError (status : Nat) : GenError
  | noCandidates : GenError
  | noParts : GenError
  | emptyText : GenError
deriving DecidableEq, Repr

/-- Behaviour of the external collaborators during one run.
`articleText` is the extracted text of the selected article when
`fetch_article_html` + `html_to_text` succeed (`none` on fetch failure);
`geminiKey` is whether `GEMINI_API_KEY` is set and non-empty; `genResp` is
the Gemini HTTP response; `hatenaCreds` is whether `HATENA_ID`,
`HATENA_API_KEY` and the blog id are all set; `pubHttpOk` is whether the
Hatena POST returns a success status.
Field order: articleText, geminiKey, genResp, hatenaCreds, pubHttpOk. -/
structure Collab where
  articleText : Option String
  geminiKey : Bool
  genResp : GenApiResp
  hatenaCreds : Bool
  pubHttpOk : Bool
deriving DecidableEq, Repr

/-- Python `str.strip()` on the character list: drop whitespace from the
left, then from the right. -/
def stripChars (l : List Char) : List Char :=
  ((l.dropWhile Char.isWhitespace).reverse.dropWhile Char.isWhitespace).reverse

/-- Python `str.strip()`. -/
def strip (s : String) : String :=
  ⟨stripChars s.data⟩

/-- Python `str.lstrip("#")`. -/
def lstripHash (s : String) : String :=
  ⟨s.data.dropWhile (fun c => c = '#')⟩

/-- The ids a parsed seen file contributes (`set(data)` on the list shape,
`set(data["ids"])` on the dict shape); membership in the list models
membership in the Python set. -/
def fileIds : FileState → List String
  | FileState.jsonList ids => ids
  | FileState.jsonDictIds ids => ids
  | _ => []

/-- Embeds `save_seen_ids` (src/main.py:66): writes
`sorted(list(ids))` as a JSON list.  `dedup` models the set, insertion
sort models `sorted`. -/
def save_seen_ids (ids : List String) : FileState :=
  FileState.jsonList (List.insertionSort (fun a b => a ≤ b) ids.dedup)

/-- Embeds `load_seen_ids` (src/main.py:44): returns the loaded id set, the
file state after loading, and the events emitted.  A missing file is
created empty via `save_seen_ids` (line 48); unparseable JSON and unknown
shapes are logged and yield the empty set, leaving the file as it is. -/
def load_seen_ids : FileState → List String × FileState × List Event
  | FileState.missing => ([], save_seen_ids [], [Event.saveSeen (save_seen_ids [])])
  | FileState.malformed => ([], FileState.malformed, [])
  | FileState.jsonList ids => (ids, FileState.jsonList ids, [])
  | FileState.jsonDictIds ids => (ids, FileState.jsonDictIds ids, [])
  | FileState.otherShape => ([], FileState.otherShape, [])

/-- Embeds the id derivation of `choose_new_entry` (src/main.py:95-98):
`getattr(e, "id", None) or getattr(e, "link", None)`, falling back to
`(title + "|" + link).strip()` when both are falsy. -/
def entry_id_of (e : Entry) : String :=
  if e.id ≠ "" then e.id
  else if e.link ≠ "" then e.link
  else strip (e.title ++ "|" ++ e.link)

/-- Embeds `choose_new_entry` (src/main.py:88): first entry whose derived
id is not in the seen set, together with that id. -/
def choose_new_entry : List Entry → List String → Option (Entry × String)
  | [], _ => none
  | e :: rest, seen =>
    let eid := entry_id_of e
    if eid ∈ seen then choose_new_entry rest seen
    else some (e, eid)

/-- Embeds the source loop of `main` (src/main.py:379-388): fetch each
source's feed in declared order, run `choose_new_entry`, and stop at the
first source yielding an unseen entry.  Each source is a (name, entries)
pair, the entries being what `fetch_rss_entries` returns for it.  Returns
the `netFetchFeed` events of the sources actually fetched and the selected
(source name, entry, id), if any. -/
def select_from_sources :
    List (String × List Entry) → List String → List Event × Option (String × Entry × String)
  | [], _ => ([], none)
  | (name, es) :: rest, seen =>
    match choose_new_entry es seen with
    | none =>
      let r := select_from_sources rest seen
      (Event.netFetchFeed name :: r.1, r.2)
    | some (e, eid) => ([Event.netFetchFeed name], some (name, e, eid))

/-- The data `build_prompt_for_article` interpolates into its (constant)
prompt template. -/
structure Prompt where
  source_name : String
  title : String
  link : String
  base_text : String
deriving DecidableEq, Repr

/-- Embeds `build_prompt_for_article` (src/main.py:211): the template text
is constant prose, so the model keeps the interpolated data, in particular
`base_text = article_text.strip() or summary.strip() or title` (line 226).
The `target_lang` branches only pick between two constant templates (and
`main` is always called with a valid language), so they are elided. -/
def build_prompt_for_article (source_name : String) (e : Entry) (article_text : String) :
    Prompt :=
  { source_name := source_name
    title := e.title
    link := e.link
    base_text :=
      if strip article_text ≠ "" then strip article_text
      else if strip e.summary ≠ "" then strip e.summary
      else e.title }

/-- Embeds `call_gemini_generate_content` (src/main.py:157): raises when
`GEMINI_API_KEY` is unset, before any request; otherwise performs exactly
one POST and raises on an HTTP error status, a response without candidates
or parts, or empty text; on success returns the stripped text.  Returns the
emitted events with the outcome. -/
def call_gemini_generate_content (keyPresent : Bool) (resp : GenApiResp) :
    List Event × Except GenError String :=
  if keyPresent then
    match resp with
    | GenApiResp.httpErr st =>
      ([Event.credCheckGemini true, Event.netGenCall], Except.error (GenError.httpError st))
    | GenApiResp.noCandidates =>
      ([Event.credCheckGemini true, Event.netGenCall], Except.error GenError.noCandidates)
    | GenApiResp.noParts =>
      ([Event.credCheckGemini true, Event.netGenCall], Except.error GenError.noParts)
    | GenApiResp.text t =>
      if strip t = "" then
        ([Event.credCheckGemini true, Event.netGenCall], Except.error GenError.emptyText)
      else ([Event.credCheckGemini true, Event.netGenCall], Except.ok (strip t))
  else ([Event.credCheckGemini false], Except.error GenError.missingApiKey)

/-- Embeds `split_title_and_body_from_gemini` (src/main.py:287): first line
(stripped, leading `#` removed) is the title, the rest is the body, the
title standing in for an empty body.  Python `splitlines` of the empty
string is `[]`, hence the guard. -/
def split_title_and_body_from_gemini (text : String) : String × String :=
  if text = "" then ("Myanmar News", text)
  else
    match text.splitOn "\n" with
    | [] => ("Myanmar News", text)
    | l0 :: rest =>
      let title := strip (lstripHash (strip l0))
      let body := strip (String.intercalate "\n" rest)
      (title, if body = "" then title else body)

/-- Embeds `post_to_hatena` (src/main.py:307): raises before any request
when a Hatena credential is missing; otherwise performs one POST and raises
unless the response status is a success.  The title, body and source link
only feed the request payload; the returned Bool is whether the post
succeeded (`True` exactly when control reaches line 355). -/
def post_to_hatena (_title _body_md _source_link : String)
    (credsPresent httpOk : Bool) : List Event × Bool :=
  if credsPresent then
    if httpOk then
      ([Event.credCheckHatena true, Event.netPubCall, Event.pubSuccess], true)
    else ([Event.credCheckHatena true, Event.netPubCall], false)
  else ([Event.credCheckHatena false], false)

/-- Python `set.add` on the list model of the seen set. -/
def addId (seen : List String) (eid : String) : List String :=
  if eid ∈ seen then seen else eid :: seen

/-- Embeds `main` (src/main.py:361): load the seen set, select the first
unseen entry across the sources, fetch the article body when the entry has
a link, build the prompt, generate via Gemini, post to Hatena, and only
after a successful post add the id and save.  Every exception of the
generation and publish steps is caught (lines 415-422, 427-432) and ends
the run without saving.  Returns the event trace and the final file
state. -/
def main_run (sources : List (String × List Entry)) (c : Collab) (file : FileState) :
    List Event × FileState :=
  let L := load_seen_ids file
  let S := select_from_sources sources L.1
  match S.2 with
  | none => (L.2.2 ++ S.1, L.2.1)
  | some (srcName, e, eid) =>
    let artEvs := if e.link = "" then [] else [Event.netFetchArticle e.link]
    let article_text :=
      if e.link = "" then ""
      else
        match c.articleText with
        | some t => t
        | none => ""
    let _prompt := build_prompt_for_article srcName e article_text
    let G := call_gemini_generate_content c.geminiKey c.genResp
    match G.2 with
    | Except.error _ => (L.2.2 ++ S.1 ++ artEvs ++ G.1, L.2.1)
    | Except.ok out =>
      let tb := split_title_and_body_from_gemini out
      let P := post_to_hatena tb.1 tb.2 e.link c.hatenaCreds c.pubHttpOk
      if P.2 then
        if eid = "" then (L.2.2 ++ S.1 ++ artEvs ++ G.1 ++ P.1, L.2.1)
        else
          let newSeen := addId L.1 eid
          (L.2.2 ++ S.1 ++ artEvs ++ G.1 ++ P.1 ++ [Event.saveSeen (save_seen_ids newSeen)],
            save_seen_ids newSeen)
      else (L.2.2 ++ S.1 ++ artEvs ++ G.1 ++ P.1, L.2.1)

/-- Whether the generation step fails (the `except` at src/main.py:418 is
entered). -/
def genFailed (c : Collab) : Bool :=
  match (call_gemini_generate_content c.geminiKey c.genResp).2 with
  | Except.error _ => true
  | Except.ok _ => false

/-- Whether generation or publish fails for the selected entry, i.e. the
run ends in one of the two `except` blocks of `main`. -/
def delivery_fails (c : Collab) : Bool :=
  genFailed c || !(c.hatenaCreds && c.pubHttpOk)

/-- The whole process (src/main.py:440-452): argparse only admits the
valid languages, and every exception inside `main` — missing API key,
Gemini HTTP errors, Hatena credential or HTTP errors, unreadable or
unwritable seen files — is caught inside `main`, so the process always
terminates normally with exit code 0. -/
def run_process (sources : List (String × List Entry)) (c : Collab) (file : FileState) :
    (List Event × FileState) × Nat :=
  (main_run sources c file, 0)

/-! ### Helper lemmas -/

/-- An element that falsifies the predicate survives `dropWhile`. -/
theorem mem_dropWhile_of_neg {α : Type} {p : α → Bool} {a : α} :
    ∀ {l : List α}, a ∈ l → p a = false → a ∈ l.dropWhile p := by
  intro l
  induction l with
  | nil => intro h _; cases h
  | cons b t ih =>
    intro h hp
    rcases List.mem_cons.mp h with hb | ht
    · subst hb
      simp [List.dropWhile, hp]
    · by_cases hpb : p b
      · simpa [List.dropWhile, hpb] using ih ht hp
      · simp [List.dropWhile, hpb, List.mem_cons, ht]

/-- A non-whitespace character survives Python strip. -/
theorem mem_stripChars {c : Char} {l : List Char} (hc : c ∈ l)
    (hw : c.isWhitespace = false) : c ∈ stripChars l := by
  unfold stripChars
  exact List.mem_reverse.mpr
    (mem_dropWhile_of_neg (List.mem_reverse.mpr (mem_dropWhile_of_neg hc hw)) hw)

/-- A string holding a non-whitespace character does not strip to empty. -/
theorem strip_ne_empty {s : String} {c : Char} (hc : c ∈ s.data)
    (hw : c.isWhitespace = false) : strip s ≠ "" := by
  intro h
  have h2 : stripChars s.data = ([] : List Char) := congrArg String.data h
  have h3 := mem_stripChars hc hw
  rw [h2] at h3
  cases h3

/-- The derived id of any entry is non-empty: the first two branches are
guarded non-empty, and the fallback composite contains the bar separator,
which strip keeps. -/
theorem entry_id_of_ne_empty (e : Entry) : entry_id_of e ≠ "" := by
  unfold entry_id_of
  split
  · assumption
  · split
    · assumption
    · apply strip_ne_empty (c := '|')
      · show '|' ∈ (e.title ++ "|" ++ e.link).data
        have : (e.title ++ "|" ++ e.link).data = e.title.data ++ "|".data ++ e.link.data := by
          cases e.title with
          | mk a => cases e.link with
            | mk b => rfl
        rw [this]
        simp [String.data]
      · decide

/-- What `choose_new_entry` returns: the id is derived from the returned
entry and is not in the seen set. -/
theorem choose_new_entry_spec :
    ∀ (es : List Entry) (seen : List String) (e : Entry) (eid : String),
      choose_new_entry es seen = some (e, eid) →
      eid = entry_id_of e ∧ eid ∉ seen := by
  intro es
  induction es with
  | nil => intro seen e eid h; cases h
  | cons a rest ih =>
    intro seen e eid h
    unfold choose_new_entry at h
    by_cases hm : entry_id_of a ∈ seen
    · simp only [hm, if_pos] at h
      exact ih seen e eid h
    · simp only [hm, if_neg, not_false_iff, Option.some.injEq, Prod.mk.injEq] at h
      obtain ⟨he, hid⟩ := h
      subst he
      subst hid
      exact ⟨rfl, hm⟩

/-- What the selection loop returns: the id is derived from the selected
entry, it is unseen, and the selected source's feed was fetched. -/
theorem select_from_sources_spec :
    ∀ (ss : List (String × List Entry)) (seen : List String)
      (n : String) (e : Entry) (eid : String),
      (select_from_sources ss seen).2 = some (n, e, eid) →
      eid = entry_id_of e ∧ eid ∉ seen ∧
        Event.netFetchFeed n ∈ (select_from_sources ss seen).1 := by
  intro ss
  induction ss with
  | nil => intro seen n e eid h; cases h
  | cons s rest ih =>
    intro seen n e eid h
    obtain ⟨name, es⟩ := s
    unfold select_from_sources at h ⊢
    cases hc : choose_new_entry es seen with
    | none =>
      rw [hc] at h
      simp only at h ⊢
      obtain ⟨h1, h2, h3⟩ := ih seen n e eid h
      exact ⟨h1, h2, List.mem_cons_of_mem _ h3⟩
    | some v =>
      obtain ⟨e0, eid0⟩ := v
      rw [hc] at h
      simp only [Option.some.injEq, Prod.mk.injEq] at h
      obtain ⟨hn, he, hid⟩ := h
      subst hn; subst he; subst hid
      obtain ⟨h1, h2⟩ := choose_new_entry_spec es seen e0 eid0 hc
      exact ⟨h1, h2, List.mem_singleton.mpr rfl⟩

/-- The selection loop only emits feed-fetch events. -/
theorem select_from_sources_evs :
    ∀ (ss : List (String × List Entry)) (seen : List String) (ev : Event),
      ev ∈ (select_from_sources ss seen).1 → ∃ m, ev = Event.netFetchFeed m := by
  intro ss
  induction ss with
  | nil => intro seen ev h; cases h
  | cons s rest ih =>
    intro seen ev h
    obtain ⟨name, es⟩ := s
    unfold select_from_sources at h
    cases hc : choose_new_entry es seen with
    | none =>
      rw [hc] at h
      simp only at h
      rcases List.mem_cons.mp h with h1 | h2
      · exact ⟨name, h1⟩
      · exact ih seen ev h2
    | some v =>
      obtain ⟨e0, eid0⟩ := v
      rw [hc] at h
      simp only at h
      rcases List.mem_singleton.mp h with h1
      exact ⟨name, h1⟩

/-- Loading only ever emits the creation write of an empty seen file. -/
theorem load_seen_ids_evs (f : FileState) (ev : Event) :
    ev ∈ (load_seen_ids f).2.2 → ev = Event.saveSeen (save_seen_ids []) := by
  cases f <;> simp [load_seen_ids]

/-- Loading an existing file returns its ids, leaves it unchanged and
writes nothing. -/
theorem load_of_ne_missing {f : FileState} (h : f ≠ FileState.missing) :
    load_seen_ids f = (fileIds f, f, []) := by
  cases f with
  | missing => exact absurd rfl h
  | malformed => rfl
  | jsonList ids => rfl
  | jsonDictIds ids => rfl
  | otherShape => rfl

/-- The Gemini call emits either the key check plus one POST, or only the
failed key check. -/
theorem gen_evs_cases (k : Bool) (r : GenApiResp) :
    (call_gemini_generate_content k r).1 = [Event.credCheckGemini true, Event.netGenCall] ∨
      (call_gemini_generate_content k r).1 = [Event.credCheckGemini false] := by
  cases k with
  | false => exact Or.inr rfl
  | true =>
    cases r with
    | httpErr st => exact Or.inl rfl
    | noCandidates => exact Or.inl rfl
    | noParts => exact Or.inl rfl
    | text t =>
      by_cases h : strip t = ""
      · exact Or.inl (by simp [call_gemini_generate_content, h])
      · exact Or.inl (by simp [call_gemini_generate_content, h])

/-- When the key is present the Gemini call performs exactly one POST. -/
theorem gen_evs_of_key (r : GenApiResp) :
    (call_gemini_generate_content true r).1 =
      [Event.credCheckGemini true, Event.netGenCall] := by
  cases r with
  | httpErr st => rfl
  | noCandidates => rfl
  | noParts => rfl
  | text t =>
    by_cases h : strip t = ""
    · simp [call_gemini_generate_content, h]
    · simp [call_gemini_generate_content, h]

/-- A missing key means the Gemini call raises before any POST. -/
theorem gen_of_no_key (r : GenApiResp) :
    call_gemini_generate_content false r =
      ([Event.credCheckGemini false], Except.error GenError.missingApiKey) := rfl

/-- An HTTP error status from Gemini raises after the single POST. -/
theorem gen_of_httpErr (st : Nat) :
    call_gemini_generate_content true (GenApiResp.httpErr st) =
      ([Event.credCheckGemini true, Event.netGenCall],
        Except.error (GenError.httpError st)) := rfl

/-- The only three outcomes of the Hatena post: missing credentials (raise
before any request), failed POST, successful POST. -/
theorem post_cases (t b l : String) (cr ok : Bool) :
    post_to_hatena t b l cr ok = ([Event.credCheckHatena false], false) ∨
      post_to_hatena t b l cr ok =
        ([Event.credCheckHatena true, Event.netPubCall], false) ∨
      post_to_hatena t b l cr ok =
        ([Event.credCheckHatena true, Event.netPubCall, Event.pubSuccess], true) := by
  cases cr with
  | false => exact Or.inl rfl
  | true =>
    cases ok with
    | false => exact Or.inr (Or.inl rfl)
    | true => exact Or.inr (Or.inr rfl)

/-- The Hatena post succeeds exactly when the credentials are present and
the POST returns a success status. -/
theorem post_true_iff (t b l : String) (cr ok : Bool) :
    (post_to_hatena t b l cr ok).2 = true ↔ cr = true ∧ ok = true := by
  cases cr <;> cases ok <;> simp [post_to_hatena]

/-- Exhaustive case analysis of one run.  Either no unseen entry exists and
nothing beyond load and fetch happens, or an entry is selected and the run
ends in exactly one of: generation failure, publish failure, or publish
success followed immediately by the save of the seen set extended with the
selected id. -/
theorem main_run_cases (sources : List (String × List Entry)) (c : Collab) (file : FileState) :
    ((select_from_sources sources (load_seen_ids file).1).2 = none ∧
      main_run sources c file =
        ((load_seen_ids file).2.2 ++ (select_from_sources sources (load_seen_ids file).1).1,
          (load_seen_ids file).2.1)) ∨
    (∃ n e eid,
      (select_from_sources sources (load_seen_ids file).1).2 = some (n, e, eid) ∧
      (((∃ err, (call_gemini_generate_content c.geminiKey c.genResp).2 = Except.error err) ∧
          main_run sources c file =
            ((load_seen_ids file).2.2 ++ (select_from_sources sources (load_seen_ids file).1).1
              ++ (if e.link = "" then [] else [Event.netFetchArticle e.link])
              ++ (call_gemini_generate_content c.geminiKey c.genResp).1,
              (load_seen_ids file).2.1)) ∨
        (∃ out, (call_gemini_generate_content c.geminiKey c.genResp).2 = Except.ok out ∧
          (((post_to_hatena (split_title_and_body_from_gemini out).1
              (split_title_and_body_from_gemini out).2 e.link c.hatenaCreds c.pubHttpOk).2 = false ∧
            main_run sources c file =
              ((load_seen_ids file).2.2 ++ (select_from_sources sources (load_seen_ids file).1).1
                ++ (if e.link = "" then [] else [Event.netFetchArticle e.link])
                ++ (call_gemini_generate_content c.geminiKey c.genResp).1
                ++ (post_to_hatena (split_title_and_body_from_gemini out).1
                      (split_title_and_body_from_gemini out).2 e.link c.hatenaCreds c.pubHttpOk).1,
                (load_seen_ids file).2.1)) ∨
          ((post_to_hatena (split_title_and_body_from_gemini out).1
              (split_title_and_body_from_gemini out).2 e.link c.hatenaCreds c.pubHttpOk).2 = true ∧
            main_run sources c file =
              ((load_seen_ids file).2.2 ++ (select_from_sources sources (load_seen_ids file).1).1
                ++ (if e.link = "" then [] else [Event.netFetchArticle e.link])
                ++ (call_gemini_generate_content c.geminiKey c.genResp).1
                ++ (post_to_hatena (split_title_and_body_from_gemini out).1
                      (split_title_and_body_from_gemini out).2 e.link c.hatenaCreds c.pubHttpOk).1
                ++ [Event.saveSeen (save_seen_ids (addId (load_seen_ids file).1 eid))],
                save_seen_ids (addId (load_seen_ids file).1 eid))))))) := by
  cases hS : (select_from_sources sources (load_seen_ids file).1).2 with
  | none =>
    left
    refine ⟨rfl, ?_⟩
    simp only [main_run]
    rw [hS]
  | some v =>
    obtain ⟨n, e, eid⟩ := v
    right
    refine ⟨n, e, eid, rfl, ?_⟩
    have hne : eid ≠ "" := by
      obtain ⟨h1, _, _⟩ := select_from_sources_spec sources (load_seen_ids file).1 n e eid hS
      rw [h1]
      exact entry_id_of_ne_empty e
    cases hG : (call_gemini_generate_content c.geminiKey c.genResp).2 with
    | error err =>
      left
      refine ⟨⟨err, rfl⟩, ?_⟩
      simp only [main_run]
      rw [hS]
      simp only
      rw [hG]
    | ok out =>
      right
      refine ⟨out, rfl, ?_⟩
      cases hP : (post_to_hatena (split_title_and_body_from_gemini out).1
          (split_title_and_body_from_gemini out).2 e.link c.hatenaCreds c.pubHttpOk).2 with
      | false =>
        left
        refine ⟨rfl, ?_⟩
        simp only [main_run]
        rw [hS]
        simp only
        rw [hG]
        simp only
        rw [hP]
        simp only [Bool.false_eq_true, if_false]
      | true =>
        right
        refine ⟨rfl, ?_⟩
        simp only [main_run]
        rw [hS]
        simp only
        rw [hG]
        simp only
        rw [hP]
        simp only [if_true, hne, if_neg, ite_false]

/-- No save event is emitted while fetching feeds. -/
theorem saveSeen_not_in_sel (ss : List (String × List Entry)) (seen : List String)
    (g : FileState) : Event.saveSeen g ∉ (select_from_sources ss seen).1 := by
  intro h
  obtain ⟨m, hm⟩ := select_from_sources_evs ss seen _ h
  cases hm

/-- No publish-success event is emitted while fetching feeds. -/
theorem pubSuccess_not_in_sel (ss : List (String × List Entry)) (seen : List String) :
    Event.pubSuccess ∉ (select_from_sources ss seen).1 := by
  intro h
  obtain ⟨m, hm⟩ := select_from_sources_evs ss seen _ h
  cases hm

/-- No Gemini POST event is emitted while fetching feeds. -/
theorem netGenCall_not_in_sel (ss : List (String × List Entry)) (seen : List String) :
    Event.netGenCall ∉ (select_from_sources ss seen).1 := by
  intro h
  obtain ⟨m, hm⟩ := select_from_sources_evs ss seen _ h
  cases hm

/-- No Hatena POST event is emitted while fetching feeds. -/
theorem netPubCall_not_in_sel (ss : List (String × List Entry)) (seen : List String) :
    Event.netPubCall ∉ (select_from_sources ss seen).1 := by
  intro h
  obtain ⟨m, hm⟩ := select_from_sources_evs ss seen _ h
  cases hm

/-- Loading never emits a Gemini POST, a Hatena POST, or a publish
success. -/
theorem load_evs_no_net (f : FileState) :
    Event.netGenCall ∉ (load_seen_ids f).2.2 ∧
      Event.netPubCall ∉ (load_seen_ids f).2.2 ∧
      Event.pubSuccess ∉ (load_seen_ids f).2.2 := by
  refine ⟨fun h => ?_, fun h => ?_, fun h => ?_⟩ <;>
    cases load_seen_ids_evs f _ h

/-- The article fetch step emits no save, publish or generation events. -/
theorem art_evs_shape (l : String) (ev : Event)
    (h : ev ∈ (if l = "" then ([] : List Event) else [Event.netFetchArticle l])) :
    ev = Event.netFetchArticle l := by
  by_cases hl : l = "" <;> simp [hl] at h
  exact h

/-- Membership in the ids of a saved file is membership in the saved
set. -/
theorem mem_save_seen_ids (y : String) (ids : List String) :
    y ∈ fileIds (save_seen_ids ids) ↔ y ∈ ids := by
  show y ∈ List.insertionSort (fun a b => a ≤ b) ids.dedup ↔ y ∈ ids
  rw [(List.perm_insertionSort _ _).mem_iff, List.mem_dedup]

/-- Adding an id yields no other new members. -/
theorem mem_addId {y eid : String} {seen : List String}
    (h : y ∈ addId seen eid) : y ∈ seen ∨ y = eid := by
  unfold addId at h
  by_cases hm : eid ∈ seen
  · simp [hm] at h
    exact Or.inl h
  · simp [hm] at h
    rcases h with h | h
    · exact Or.inr h
    · exact Or.inl h

/-- The ids of the file state left behind by loading are exactly the loaded
ids. -/
theorem fileIds_load (f : FileState) :
    fileIds (load_seen_ids f).2.1 = (load_seen_ids f).1 := by
  cases f <;> rfl

/-! ### Claims -/

/-- C3: for every entry whose identifier is already in the loaded seen set,
the run never attempts generation or publishing for that entry: the
candidate-selection step (`choose_new_entry` under the source loop) only
ever selects an entry whose derived identifier is not in the seen set, and
`main` invokes generation and publish solely for the selected entry,
regardless of whether the feed still lists previously seen entries. -/
theorem C3_seen_never_selected (ss : List (String × List Entry)) (seen : List String)
    (n : String) (e : Entry) (eid : String)
    (hsel : (select_from_sources ss seen).2 = some (n, e, eid)) :
    eid ∉ seen :=
  (select_from_sources_spec ss seen n e eid hsel).2.1

/-- Witness for C3: a feed whose sole new entry has id `a` while id `b` is
seen selects `a`, which is indeed not in the seen set. -/
theorem C3_witness : ("a" : String) ∉ (["b"] : List String) :=
  C3_seen_never_selected [("S", [⟨"a", "", "", ""⟩])] ["b"] "S" ⟨"a", "", "", ""⟩ "a"
    (by decide)

/-- C5 counterexample: for an entry with neither a feed id nor a link, the
code derives `(title + "|" + link).strip()`, which contains the title and
(empty) link but not the source name: from the source named `NEWS-SOURCE`
the derived id is `T|`, a two-character string that is strictly shorter
than the source name and therefore cannot be any composite that includes
the source name, falsifying the claimed source-name + title fallback. -/
theorem C5_counterexample :
    (select_from_sources [("NEWS-SOURCE", [⟨"", "", "T", ""⟩])] []).2
        = some ("NEWS-SOURCE", ⟨"", "", "T", ""⟩, "T|") ∧
      ("T|" : String).length < ("NEWS-SOURCE" : String).length := by
  constructor
  · decide
  · decide

/-- C5 (amended): the article identifier is the feed-provided id when
non-empty, else the entry's link when non-empty, else the composite of the
entry's title and link, `(title + "|" + link).strip()` — not of the source
name and title. -/
theorem C5_identifier_derivation (ss : List (String × List Entry)) (seen : List String)
    (n : String) (e : Entry) (eid : String)
    (hsel : (select_from_sources ss seen).2 = some (n, e, eid)) :
    eid = if e.id ≠ "" then e.id
      else if e.link ≠ "" then e.link
      else strip (e.title ++ "|" ++ e.link) := by
  have h := (select_from_sources_spec ss seen n e eid hsel).1
  rw [h]
  rfl

/-- Witness for C5 (amended): an entry with no feed id and link `L` derives
id `L`. -/
theorem C5_witness :
    ("L" : String) =
      if ("" : String) ≠ "" then ""
      else if ("L" : String) ≠ "" then "L"
      else strip ("T" ++ "|" ++ "L") :=
  C5_identifier_derivation [("S", [⟨"", "L", "T", ""⟩])] [] "S" ⟨"", "L", "T", ""⟩ "L"
    (by decide)

/-- C9: loading a malformed seen file — unparseable JSON, or JSON of an
unrecognized shape — does not raise: it returns the empty set (after a
logged warning) and leaves the file alone, and the run proceeds exactly as
it would with an empty seen set: the whole run produces the same event
trace as with an empty seen file. -/
theorem C9_malformed_seen_file :
    load_seen_ids FileState.malformed = ([], FileState.malformed, []) ∧
      load_seen_ids FileState.otherShape = ([], FileState.otherShape, []) ∧
      ∀ (ss : List (String × List Entry)) (c : Collab),
        (main_run ss c FileState.malformed).1 = (main_run ss c (FileState.jsonList [])).1 := by
  refine ⟨rfl, rfl, ?_⟩
  intro ss c
  simp only [main_run, load_seen_ids]
  cases hS : (select_from_sources ss []).2 with
  | none => rfl
  | some v =>
    obtain ⟨n, e, eid⟩ := v
    simp only
    cases hG : (call_gemini_generate_content c.geminiKey c.genResp).2 with
    | error err => rfl
    | ok out =>
      simp only
      cases hP : (post_to_hatena (split_title_and_body_from_gemini out).1
          (split_title_and_body_from_gemini out).2 e.link c.hatenaCreds c.pubHttpOk).2 with
      | false => rfl
      | true =>
        by_cases he : eid = "" <;> simp [he]

/-- C10: every run performs at most one Gemini generation call, at most one
Hatena publish call, and grows the persisted seen set by at most one
identifier: the selection stops at the first source yielding an unseen
entry and takes only that entry. -/
theorem C10_at_most_one_delivery (ss : List (String × List Entry)) (c : Collab) (f : FileState) :
    (main_run ss c f).1.count Event.netGenCall ≤ 1 ∧
      (main_run ss c f).1.count Event.netPubCall ≤ 1 ∧
      ∃ x, ∀ y ∈ fileIds (main_run ss c f).2, y ∈ (load_seen_ids f).1 ∨ y = x := by
  have hLg : ((load_seen_ids f).2.2).count Event.netGenCall = 0 :=
    List.count_eq_zero.mpr (load_evs_no_net f).1
  have hLp : ((load_seen_ids f).2.2).count Event.netPubCall = 0 :=
    List.count_eq_zero.mpr (load_evs_no_net f).2.1
  have hSg : ((select_from_sources ss (load_seen_ids f).1).1).count Event.netGenCall = 0 :=
    List.count_eq_zero.mpr (netGenCall_not_in_sel ss _)
  have hSp : ((select_from_sources ss (load_seen_ids f).1).1).count Event.netPubCall = 0 :=
    List.count_eq_zero.mpr (netPubCall_not_in_sel ss _)
  have hAg : ∀ l : String,
      (if l = "" then ([] : List Event) else [Event.netFetchArticle l]).count
        Event.netGenCall = 0 :=
    fun l => List.count_eq_zero.mpr (fun h => by cases art_evs_shape l _ h)
  have hAp : ∀ l : String,
      (if l = "" then ([] : List Event) else [Event.netFetchArticle l]).count
        Event.netPubCall = 0 :=
    fun l => List.count_eq_zero.mpr (fun h => by cases art_evs_shape l _ h)
  have hGg : ((call_gemini_generate_content c.geminiKey c.genResp).1).count
      Event.netGenCall ≤ 1 := by
    rcases gen_evs_cases c.geminiKey c.genResp with hg | hg <;> rw [hg] <;> decide
  have hGp : ((call_gemini_generate_content c.geminiKey c.genResp).1).count
      Event.netPubCall = 0 := by
    rcases gen_evs_cases c.geminiKey c.genResp with hg | hg <;> rw [hg] <;> decide
  rcases main_run_cases ss c f with ⟨hS, hEq⟩ | ⟨n, e, eid, hS, hBr⟩
  · refine ⟨?_, ?_, ⟨"", fun y hy => ?_⟩⟩
    · rw [hEq]
      simp [List.count_append, hLg, hSg]
    · rw [hEq]
      simp [List.count_append, hLp, hSp]
    · rw [hEq] at hy
      have hy2 : y ∈ fileIds (load_seen_ids f).2.1 := hy
      rw [fileIds_load] at hy2
      exact Or.inl hy2
  · rcases hBr with ⟨⟨err, hGerr⟩, hEq⟩ | ⟨out, hGok, hPBr⟩
    · refine ⟨?_, ?_, ⟨"", fun y hy => ?_⟩⟩
      · rw [hEq]
        simp only [List.count_append, hLg, hSg, hAg e.link]
        omega
      · rw [hEq]
        simp only [List.count_append, hLp, hSp, hAp e.link, hGp]
        omega
      · rw [hEq] at hy
        have hy2 : y ∈ fileIds (load_seen_ids f).2.1 := hy
        rw [fileIds_load] at hy2
        exact Or.inl hy2
    · have hPc := post_cases (split_title_and_body_from_gemini out).1
        (split_title_and_body_from_gemini out).2 e.link c.hatenaCreds c.pubHttpOk
      rcases hPBr with ⟨hP, hEq⟩ | ⟨hP, hEq⟩
      · rcases hPc with hp | hp | hp
        · refine ⟨?_, ?_, ⟨"", fun y hy => ?_⟩⟩
          · rw [hEq, hp]
            simp only [List.count_append, hLg, hSg, hAg e.link]
            have : ([Event.credCheckHatena false] : List Event).count Event.netGenCall = 0 := by
              decide
            omega
          · rw [hEq, hp]
            simp only [List.count_append, hLp, hSp, hAp e.link, hGp]
            decide
          · rw [hEq] at hy
            have hy2 : y ∈ fileIds (load_seen_ids f).2.1 := hy
            rw [fileIds_load] at hy2
            exact Or.inl hy2
        · refine ⟨?_, ?_, ⟨"", fun y hy => ?_⟩⟩
          · rw [hEq, hp]
            simp only [List.count_append, hLg, hSg, hAg e.link]
            have : ([Event.credCheckHatena true, Event.netPubCall] : List Event).count
                Event.netGenCall = 0 := by decide
            omega
          · rw [hEq, hp]
            simp only [List.count_append, hLp, hSp, hAp e.link, hGp]
            decide
          · rw [hEq] at hy
            have hy2 : y ∈ fileIds (load_seen_ids f).2.1 := hy
            rw [fileIds_load] at hy2
            exact Or.inl hy2
        · rw [hp] at hP
          simp at hP
      · rcases hPc with hp | hp | hp
        · rw [hp] at hP
          simp at hP
        · rw [hp] at hP
          simp at hP
        · have hsvg : ∀ g : FileState,
              ([Event.saveSeen g] : List Event).count Event.netGenCall = 0 :=
            fun g => List.count_eq_zero.mpr (by simp)
          have hsvp : ∀ g : FileState,
              ([Event.saveSeen g] : List Event).count Event.netPubCall = 0 :=
            fun g => List.count_eq_zero.mpr (by simp)
          refine ⟨?_, ?_, ⟨eid, fun y hy => ?_⟩⟩
          · rw [hEq, hp]
            simp only [List.count_append, hLg, hSg, hAg e.link, hsvg]
            have : ([Event.credCheckHatena true, Event.netPubCall, Event.pubSuccess] :
                List Event).count Event.netGenCall = 0 := by decide
            omega
          · rw [hEq, hp]
            simp only [List.count_append, hLp, hSp, hAp e.link, hGp, hsvp]
            decide
          · rw [hEq] at hy
            have hy2 : y ∈ fileIds (save_seen_ids (addId (load_seen_ids f).1 eid)) := hy
            rw [mem_save_seen_ids] at hy2
            exact mem_addId hy2

/-- C1: when generation or publish fails for the selected entry (the Gemini
call raises, or the Hatena post raises or gets a non-success status), the
id is not added to the seen set, the persisted seen file is left unchanged,
and a subsequent run over the same feed state selects the same entry
again.  (When no seen file exists yet, `load_seen_ids` has already created
an empty one at load time, so the pre-existing-file hypothesis only
excludes that initialization.) -/
theorem C1_failure_leaves_seen_unchanged (ss : List (String × List Entry)) (c : Collab)
    (file : FileState) (n : String) (e : Entry) (eid : String)
    (hfile : file ≠ FileState.missing)
    (hsel : (select_from_sources ss (load_seen_ids file).1).2 = some (n, e, eid))
    (hfail : delivery_fails c = true) :
    (main_run ss c file).2 = file ∧
      eid ∉ fileIds (main_run ss c file).2 ∧
      (select_from_sources ss (load_seen_ids ((main_run ss c file).2)).1).2 =
        some (n, e, eid) := by
  have hL := load_of_ne_missing hfile
  have hfinal : (main_run ss c file).2 = file := by
    rcases main_run_cases ss c file with ⟨hS, hEq⟩ | ⟨n2, e2, eid2, hS, hBr⟩
    · rw [hS] at hsel
      cases hsel
    · rcases hBr with ⟨⟨err, hGerr⟩, hEq⟩ | ⟨out, hGok, hPBr⟩
      · rw [hEq, hL]
      · rcases hPBr with ⟨hP, hEq⟩ | ⟨hP, hEq⟩
        · rw [hEq, hL]
        · exfalso
          obtain ⟨hcr, hok⟩ := (post_true_iff _ _ _ _ _).mp hP
          have hgf : genFailed c = false := by
            unfold genFailed
            rw [hGok]
          rw [delivery_fails, hgf, hcr, hok] at hfail
          simp at hfail
  refine ⟨hfinal, ?_, ?_⟩
  · rw [hfinal]
    have hmem := (select_from_sources_spec ss (load_seen_ids file).1 n e eid hsel).2.1
    rw [hL] at hmem
    exact hmem
  · rw [hfinal]
    exact hsel

/-- Witness for C1: a run over one entry with id `a`, an empty existing
seen file, and a Gemini server error leaves the file unchanged, does not
record `a`, and re-selects the same entry. -/
theorem C1_witness :
    (main_run [("S", [⟨"a", "", "", ""⟩])] ⟨none, true, GenApiResp.httpErr 500, true, true⟩
        (FileState.jsonList [])).2 = FileState.jsonList [] ∧
      "a" ∉ fileIds (main_run [("S", [⟨"a", "", "", ""⟩])]
        ⟨none, true, GenApiResp.httpErr 500, true, true⟩ (FileState.jsonList [])).2 ∧
      (select_from_sources [("S", [⟨"a", "", "", ""⟩])]
        (load_seen_ids ((main_run [("S", [⟨"a", "", "", ""⟩])]
          ⟨none, true, GenApiResp.httpErr 500, true, true⟩ (FileState.jsonList [])).2)).1).2 =
        some ("S", ⟨"a", "", "", ""⟩, "a") :=
  C1_failure_leaves_seen_unchanged [("S", [⟨"a", "", "", ""⟩])]
    ⟨none, true, GenApiResp.httpErr 500, true, true⟩ (FileState.jsonList [])
    "S" ⟨"a", "", "", ""⟩ "a" (by decide) (by decide) (by decide)

/-- C2 counterexample: on a cold start (no seen file), `load_seen_ids`
already persists an (empty) seen set before any publish: the run below
emits a save event although no publish success ever occurs, falsifying
"persistence never happens before publish success is confirmed" as
stated. -/
theorem C2_counterexample :
    Event.saveSeen (save_seen_ids []) ∈
        (main_run [("S", [])] ⟨none, true, GenApiResp.noParts, true, true⟩
          FileState.missing).1 ∧
      Event.pubSuccess ∉
        (main_run [("S", [])] ⟨none, true, GenApiResp.noParts, true, true⟩
          FileState.missing).1 := by
  decide

/-- C2 (amended): apart from the initialization write that creates an empty
seen file when none exists at load time, the seen set is persisted exactly
when the publish call succeeded, and then immediately after that success as
the final step of the run: for a pre-existing seen file, a save event
occurs in the trace iff a publish success does, and any save is the last
event, directly preceded by the publish success. -/
theorem C2_persist_only_after_publish (ss : List (String × List Entry)) (c : Collab)
    (file : FileState) (hfile : file ≠ FileState.missing) :
    ((∃ g, Event.saveSeen g ∈ (main_run ss c file).1) ↔
        Event.pubSuccess ∈ (main_run ss c file).1) ∧
      ∀ g, Event.saveSeen g ∈ (main_run ss c file).1 →
        ∃ pre, (main_run ss c file).1 = pre ++ [Event.pubSuccess, Event.saveSeen g] := by
  have hL := load_of_ne_missing hfile
  have hart : ∀ (l : String) (g : FileState),
      Event.saveSeen g ∉ (if l = "" then ([] : List Event) else [Event.netFetchArticle l]) :=
    fun l g h => by cases art_evs_shape l _ h
  have hartp : ∀ l : String,
      Event.pubSuccess ∉ (if l = "" then ([] : List Event) else [Event.netFetchArticle l]) :=
    fun l h => by cases art_evs_shape l _ h
  have hgen : ∀ g : FileState,
      Event.saveSeen g ∉ (call_gemini_generate_content c.geminiKey c.genResp).1 := by
    intro g h
    rcases gen_evs_cases c.geminiKey c.genResp with hg | hg <;> rw [hg] at h <;> simp at h
  have hgenp : Event.pubSuccess ∉ (call_gemini_generate_content c.geminiKey c.genResp).1 := by
    intro h
    rcases gen_evs_cases c.geminiKey c.genResp with hg | hg <;> rw [hg] at h <;> simp at h
  rcases main_run_cases ss c file with ⟨hS, hEq⟩ | ⟨n, e, eid, hS, hBr⟩
  · rw [hEq, hL]
    constructor
    · constructor
      · rintro ⟨g, hg⟩
        simp only [List.nil_append] at hg
        exact absurd hg (saveSeen_not_in_sel ss _ g)
      · intro hp
        simp only [List.nil_append] at hp
        exact absurd hp (pubSuccess_not_in_sel ss _)
    · intro g hg
      simp only [List.nil_append] at hg
      exact absurd hg (saveSeen_not_in_sel ss _ g)
  · rcases hBr with ⟨⟨err, hGerr⟩, hEq⟩ | ⟨out, hGok, hPBr⟩
    · rw [hEq, hL]
      simp only [List.nil_append]
      constructor
      · constructor
        · rintro ⟨g, hg⟩
          rcases List.mem_append.mp hg with hg2 | hg2
          · rcases List.mem_append.mp hg2 with hg3 | hg3
            · exact absurd hg3 (saveSeen_not_in_sel ss _ g)
            · exact absurd hg3 (hart e.link g)
          · exact absurd hg2 (hgen g)
        · intro hp
          rcases List.mem_append.mp hp with hp2 | hp2
          · rcases List.mem_append.mp hp2 with hp3 | hp3
            · exact absurd hp3 (pubSuccess_not_in_sel ss _)
            · exact absurd hp3 (hartp e.link)
          · exact absurd hp2 hgenp
      · intro g hg
        exfalso
        rcases List.mem_append.mp hg with hg2 | hg2
        · rcases List.mem_append.mp hg2 with hg3 | hg3
          · exact absurd hg3 (saveSeen_not_in_sel ss _ g)
          · exact absurd hg3 (hart e.link g)
        · exact absurd hg2 (hgen g)
    · have hPc := post_cases (split_title_and_body_from_gemini out).1
        (split_title_and_body_from_gemini out).2 e.link c.hatenaCreds c.pubHttpOk
      rcases hPBr with ⟨hP, hEq⟩ | ⟨hP, hEq⟩
      · have hPl : Event.pubSuccess ∉ (post_to_hatena (split_title_and_body_from_gemini out).1
            (split_title_and_body_from_gemini out).2 e.link c.hatenaCreds c.pubHttpOk).1 ∧
            ∀ g, Event.saveSeen g ∉ (post_to_hatena (split_title_and_body_from_gemini out).1
              (split_title_and_body_from_gemini out).2 e.link c.hatenaCreds c.pubHttpOk).1 := by
          rcases hPc with hp | hp | hp
          · rw [hp]
            exact ⟨by simp, fun g => by simp⟩
          · rw [hp]
            exact ⟨by simp, fun g => by simp⟩
          · rw [hp] at hP
            simp at hP
        rw [hEq, hL]
        simp only [List.nil_append]
        constructor
        · constructor
          · rintro ⟨g, hg⟩
            rcases List.mem_append.mp hg with hg2 | hg2
            · rcases List.mem_append.mp hg2 with hg3 | hg3
              · rcases List.mem_append.mp hg3 with hg4 | hg4
                · exact absurd hg4 (saveSeen_not_in_sel ss _ g)
                · exact absurd hg4 (hart e.link g)
              · exact absurd hg3 (hgen g)
            · exact absurd hg2 (hPl.2 g)
          · intro hp
            rcases List.mem_append.mp hp with hp2 | hp2
            · rcases List.mem_append.mp hp2 with hp3 | hp3
              · rcases List.mem_append.mp hp3 with hp4 | hp4
                · exact absurd hp4 (pubSuccess_not_in_sel ss _)
                · exact absurd hp4 (hartp e.link)
              · exact absurd hp3 hgenp
            · exact absurd hp2 hPl.1
        · intro g hg
          exfalso
          rcases List.mem_append.mp hg with hg2 | hg2
          · rcases List.mem_append.mp hg2 with hg3 | hg3
            · rcases List.mem_append.mp hg3 with hg4 | hg4
              · exact absurd hg4 (saveSeen_not_in_sel ss _ g)
              · exact absurd hg4 (hart e.link g)
            · exact absurd hg3 (hgen g)
          · exact absurd hg2 (hPl.2 g)
      · have hPlist : (post_to_hatena (split_title_and_body_from_gemini out).1
            (split_title_and_body_from_gemini out).2 e.link c.hatenaCreds c.pubHttpOk).1 =
            [Event.credCheckHatena true, Event.netPubCall, Event.pubSuccess] := by
          rcases hPc with hp | hp | hp
          · rw [hp] at hP
            simp at hP
          · rw [hp] at hP
            simp at hP
          · rw [hp]
        have hLE : (load_seen_ids file).2.2 = ([] : List Event) := by rw [hL]
        rw [hEq, hLE, hPlist]
        simp only [List.nil_append]
        constructor
        · constructor
          · intro _
            simp
          · intro _
            exact ⟨save_seen_ids (addId (load_seen_ids file).1 eid), by simp⟩
        · intro g hg
          have hgeq : g = save_seen_ids (addId (load_seen_ids file).1 eid) := by
            rcases List.mem_append.mp hg with hg2 | hg2
            · exfalso
              rcases List.mem_append.mp hg2 with hg3 | hg3
              · rcases List.mem_append.mp hg3 with hg4 | hg4
                · rcases List.mem_append.mp hg4 with hg5 | hg5
                  · exact absurd hg5 (saveSeen_not_in_sel ss _ g)
                  · exact absurd hg5 (hart e.link g)
                · exact absurd hg4 (hgen g)
              · simp at hg3
            · simpa using hg2
          subst hgeq
          refine ⟨(select_from_sources ss (load_seen_ids file).1).1
            ++ (if e.link = "" then ([] : List Event) else [Event.netFetchArticle e.link])
            ++ (call_gemini_generate_content c.geminiKey c.genResp).1
            ++ [Event.credCheckHatena true, Event.netPubCall], ?_⟩
          simp [List.append_assoc]

/-- Witness for C2 (amended): a fully successful run over one entry with an
existing empty seen file satisfies the save-iff-publish-success and
save-immediately-after properties. -/
theorem C2_witness :
    ((∃ g, Event.saveSeen g ∈ (main_run [("S", [⟨"a", "", "", ""⟩])]
          ⟨none, true, GenApiResp.text "T\nB", true, true⟩ (FileState.jsonList [])).1) ↔
        Event.pubSuccess ∈ (main_run [("S", [⟨"a", "", "", ""⟩])]
          ⟨none, true, GenApiResp.text "T\nB", true, true⟩ (FileState.jsonList [])).1) ∧
      ∀ g, Event.saveSeen g ∈ (main_run [("S", [⟨"a", "", "", ""⟩])]
          ⟨none, true, GenApiResp.text "T\nB", true, true⟩ (FileState.jsonList [])).1 →
        ∃ pre, (main_run [("S", [⟨"a", "", "", ""⟩])]
          ⟨none, true, GenApiResp.text "T\nB", true, true⟩ (FileState.jsonList [])).1 =
            pre ++ [Event.pubSuccess, Event.saveSeen g] :=
  C2_persist_only_after_publish [("S", [⟨"a", "", "", ""⟩])]
    ⟨none, true, GenApiResp.text "T\nB", true, true⟩ (FileState.jsonList []) (by decide)

/-- C4 counterexample: cold start (no seen file) over a feed with two
entries `a`, `b` and fully successful collaborators: the run does NOT
process all entries — it performs a single generation call and the created
seen file contains only `a`, not the identifiers of all current entries. -/
theorem C4_counterexample :
    (main_run [("S", [⟨"a", "", "", ""⟩, ⟨"b", "", "", ""⟩])]
        ⟨none, true, GenApiResp.text "Title\nBody", true, true⟩ FileState.missing).2 =
      FileState.jsonList ["a"] ∧
      "b" ∉ fileIds (main_run [("S", [⟨"a", "", "", ""⟩, ⟨"b", "", "", ""⟩])]
        ⟨none, true, GenApiResp.text "Title\nBody", true, true⟩ FileState.missing).2 ∧
      (main_run [("S", [⟨"a", "", "", ""⟩, ⟨"b", "", "", ""⟩])]
        ⟨none, true, GenApiResp.text "Title\nBody", true, true⟩ FileState.missing).1.count
        Event.netGenCall = 1 := by
  decide

/-- C4 (amended): with no pre-existing seen file the loaded seen set is
empty, so no entry is filtered: the run selects the first entry of the
first source as new, and after successful delivery the created seen file
contains exactly that one entry's identifier. -/
theorem C4_cold_start_first_entry (n : String) (e : Entry) (es : List Entry)
    (rest : List (String × List Entry)) (c : Collab)
    (hgen : genFailed c = false) (hcreds : c.hatenaCreds = true) (hok : c.pubHttpOk = true) :
    (load_seen_ids FileState.missing).1 = [] ∧
      (select_from_sources ((n, e :: es) :: rest) []).2 = some (n, e, entry_id_of e) ∧
      (main_run ((n, e :: es) :: rest) c FileState.missing).2 =
        FileState.jsonList [entry_id_of e] := by
  have hsel2 : (select_from_sources ((n, e :: es) :: rest) []).2 =
      some (n, e, entry_id_of e) := by
    simp [select_from_sources, choose_new_entry]
  refine ⟨rfl, hsel2, ?_⟩
  have hsel : (select_from_sources ((n, e :: es) :: rest)
      (load_seen_ids FileState.missing).1).2 = some (n, e, entry_id_of e) := hsel2
  rcases main_run_cases ((n, e :: es) :: rest) c FileState.missing with
    ⟨hS, hEq⟩ | ⟨n2, e2, eid2, hS, hBr⟩
  · rw [hS] at hsel
    cases hsel
  · rw [hsel] at hS
    simp only [Option.some.injEq, Prod.mk.injEq] at hS
    obtain ⟨hn, he, hid⟩ := hS
    subst hn
    subst he
    subst hid
    rcases hBr with ⟨⟨err, hGerr⟩, hEq⟩ | ⟨out, hGok, hPBr⟩
    · exfalso
      simp [genFailed, hGerr] at hgen
    · rcases hPBr with ⟨hP, hEq⟩ | ⟨hP, hEq⟩
      · exfalso
        rw [(post_true_iff _ _ _ _ _).mpr ⟨hcreds, hok⟩] at hP
        cases hP
      · rw [hEq]
        show save_seen_ids (addId (load_seen_ids FileState.missing).1 (entry_id_of e)) =
          FileState.jsonList [entry_id_of e]
        have h1 : addId (load_seen_ids FileState.missing).1 (entry_id_of e) =
            [entry_id_of e] := by
          simp [addId, load_seen_ids]
        rw [h1]
        simp [save_seen_ids, List.insertionSort, List.orderedInsert]

/-- Witness for C4 (amended): cold start over one entry with id `a` and a
successful delivery leaves `seen_articles.json` holding exactly `a`. -/
theorem C4_witness :
    (load_seen_ids FileState.missing).1 = [] ∧
      (select_from_sources [("S", [⟨"a", "", "", ""⟩])] []).2 =
        some ("S", ⟨"a", "", "", ""⟩, entry_id_of ⟨"a", "", "", ""⟩) ∧
      (main_run [("S", [⟨"a", "", "", ""⟩])] ⟨none, true, GenApiResp.text "T\nB", true, true⟩
          FileState.missing).2 = FileState.jsonList [entry_id_of ⟨"a", "", "", ""⟩] :=
  C4_cold_start_first_entry "S" ⟨"a", "", "", ""⟩ [] []
    ⟨none, true, GenApiResp.text "T\nB", true, true⟩ (by decide) rfl rfl

/-- C6 counterexample: with a 429 rate-limit response from Gemini the run
performs exactly one generation POST — there is no retry, no backoff — and
then ends without any publish attempt, leaving the seen file unchanged. -/
theorem C6_counterexample :
    (main_run [("S", [⟨"a", "", "", ""⟩])] ⟨none, true, GenApiResp.httpErr 429, true, true⟩
        (FileState.jsonList [])).1.count Event.netGenCall = 1 ∧
      Event.netPubCall ∉ (main_run [("S", [⟨"a", "", "", ""⟩])]
        ⟨none, true, GenApiResp.httpErr 429, true, true⟩ (FileState.jsonList [])).1 ∧
      (main_run [("S", [⟨"a", "", "", ""⟩])] ⟨none, true, GenApiResp.httpErr 429, true, true⟩
        (FileState.jsonList [])).2 = FileState.jsonList [] := by
  decide

/-- C6 (amended): `call_gemini_generate_content` has no retry logic: on a
rate-limit / quota HTTP error status the exception propagates after the
single POST, and `main` catches it, logs, and ends the run immediately —
exactly one generation call, no publish attempt, seen file unchanged; the
entry stays eligible for the next run. -/
theorem C6_rate_limit_single_attempt (ss : List (String × List Entry)) (c : Collab)
    (file : FileState) (n : String) (e : Entry) (eid : String) (st : Nat)
    (hsel : (select_from_sources ss (load_seen_ids file).1).2 = some (n, e, eid))
    (hkey : c.geminiKey = true) (hresp : c.genResp = GenApiResp.httpErr st) :
    (main_run ss c file).1.count Event.netGenCall = 1 ∧
      Event.netPubCall ∉ (main_run ss c file).1 ∧
      (main_run ss c file).2 = (load_seen_ids file).2.1 := by
  have hgen : call_gemini_generate_content c.geminiKey c.genResp =
      ([Event.credCheckGemini true, Event.netGenCall],
        Except.error (GenError.httpError st)) := by
    rw [hkey, hresp]
    exact gen_of_httpErr st
  rcases main_run_cases ss c file with ⟨hS, hEq⟩ | ⟨n2, e2, eid2, hS, hBr⟩
  · rw [hS] at hsel
    cases hsel
  · rcases hBr with ⟨⟨err, hGerr⟩, hEq⟩ | ⟨out, hGok, hPBr⟩
    · refine ⟨?_, ?_, by rw [hEq]⟩
      · rw [hEq, hgen]
        have h1 : ((load_seen_ids file).2.2).count Event.netGenCall = 0 :=
          List.count_eq_zero.mpr (load_evs_no_net file).1
        have h2 : ((select_from_sources ss (load_seen_ids file).1).1).count
            Event.netGenCall = 0 :=
          List.count_eq_zero.mpr (netGenCall_not_in_sel ss _)
        have h3 : ((if e2.link = "" then ([] : List Event)
            else [Event.netFetchArticle e2.link]).count Event.netGenCall) = 0 :=
          List.count_eq_zero.mpr (fun h => by cases art_evs_shape e2.link _ h)
        simp only [List.count_append, h1, h2, h3]
        decide
      · rw [hEq, hgen]
        intro h
        rcases List.mem_append.mp h with h2 | h2
        · rcases List.mem_append.mp h2 with h3 | h3
          · rcases List.mem_append.mp h3 with h4 | h4
            · exact (load_evs_no_net file).2.1 h4
            · exact netPubCall_not_in_sel ss _ h4
          · cases art_evs_shape e2.link _ h3
        · simp at h2
    · exfalso
      rw [hgen] at hGok
      cases hGok

/-- Witness for C6 (amended): a concrete 429 run makes exactly one Gemini
call and leaves the seen file with its previous single id. -/
theorem C6_witness :
    (main_run [("S", [⟨"a", "", "", ""⟩])] ⟨none, true, GenApiResp.httpErr 429, false, false⟩
        (FileState.jsonList ["z"])).1.count Event.netGenCall = 1 ∧
      Event.netPubCall ∉ (main_run [("S", [⟨"a", "", "", ""⟩])]
        ⟨none, true, GenApiResp.httpErr 429, false, false⟩ (FileState.jsonList ["z"])).1 ∧
      (main_run [("S", [⟨"a", "", "", ""⟩])] ⟨none, true, GenApiResp.httpErr 429, false, false⟩
        (FileState.jsonList ["z"])).2 =
        (load_seen_ids (FileState.jsonList ["z"])).2.1 :=
  C6_rate_limit_single_attempt [("S", [⟨"a", "", "", ""⟩])]
    ⟨none, true, GenApiResp.httpErr 429, false, false⟩ (FileState.jsonList ["z"])
    "S" ⟨"a", "", "", ""⟩ "a" 429 (by decide) rfl rfl

/-- C7 counterexample: an entry with no link, no summary and no title (no
usable body text at all) is NOT skipped-and-marked-seen: the run still
attempts generation (one Gemini call), and when delivery fails its id is
absent from the final seen file, so it will be retried — contradicting the
claimed SkippedEmpty behaviour. -/
theorem C7_counterexample :
    "idA" ∉ fileIds (main_run [("S", [⟨"idA", "", "", ""⟩])]
        ⟨none, true, GenApiResp.text "", true, true⟩ (FileState.jsonList [])).2 ∧
      (main_run [("S", [⟨"idA", "", "", ""⟩])] ⟨none, true, GenApiResp.text "", true, true⟩
        (FileState.jsonList [])).1.count Event.netGenCall = 1 ∧
      (main_run [("S", [⟨"idA", "", "", ""⟩])] ⟨none, true, GenApiResp.text "", true, true⟩
        (FileState.jsonList [])).2 = FileState.jsonList [] := by
  decide

/-- C7 (amended): there is no SkippedEmpty outcome in the code: when body
extraction yields no text, `build_prompt_for_article` falls back to the
stripped summary, or the raw title, as the prompt base text, and the run
still proceeds to generation; on a generation failure the seen file is left
unchanged, so a permanently unprocessable entry is retried on every run
rather than being marked seen. -/
theorem C7_no_skip_empty (ss : List (String × List Entry)) (c : Collab) (file : FileState)
    (n : String) (e : Entry) (eid : String)
    (hsel : (select_from_sources ss (load_seen_ids file).1).2 = some (n, e, eid))
    (_hlink : e.link = "") (hkey : c.geminiKey = true) (hfail : genFailed c = true) :
    Event.netGenCall ∈ (main_run ss c file).1 ∧
      (build_prompt_for_article n e "").base_text =
        (if strip e.summary ≠ "" then strip e.summary else e.title) ∧
      (main_run ss c file).2 = (load_seen_ids file).2.1 := by
  have hs : strip "" = "" := rfl
  have hbase : (build_prompt_for_article n e "").base_text =
      (if strip e.summary ≠ "" then strip e.summary else e.title) := by
    simp [build_prompt_for_article, hs]
  rcases main_run_cases ss c file with ⟨hS, hEq⟩ | ⟨n2, e2, eid2, hS, hBr⟩
  · rw [hS] at hsel
    cases hsel
  · rcases hBr with ⟨⟨err, hGerr⟩, hEq⟩ | ⟨out, hGok, hPBr⟩
    · have hgl : (call_gemini_generate_content c.geminiKey c.genResp).1 =
          [Event.credCheckGemini true, Event.netGenCall] := by
        rw [hkey]
        exact gen_evs_of_key _
      refine ⟨?_, hbase, by rw [hEq]⟩
      rw [hEq, hgl]
      simp
    · exfalso
      simp [genFailed, hGok] at hfail

/-- Witness for C7 (amended): a linkless entry with summary `Sum` still
reaches the Gemini call, its prompt built from the stripped summary, and a
failing generation leaves the empty seen file as is. -/
theorem C7_witness :
    Event.netGenCall ∈ (main_run [("S", [⟨"idA", "", "T", "Sum"⟩])]
        ⟨none, true, GenApiResp.text "", true, true⟩ (FileState.jsonList [])).1 ∧
      (build_prompt_for_article "S" ⟨"idA", "", "T", "Sum"⟩ "").base_text =
        (if strip "Sum" ≠ "" then strip "Sum" else "T") ∧
      (main_run [("S", [⟨"idA", "", "T", "Sum"⟩])]
        ⟨none, true, GenApiResp.text "", true, true⟩ (FileState.jsonList [])).2 =
        (load_seen_ids (FileState.jsonList [])).2.1 :=
  C7_no_skip_empty [("S", [⟨"idA", "", "T", "Sum"⟩])]
    ⟨none, true, GenApiResp.text "", true, true⟩ (FileState.jsonList [])
    "S" ⟨"idA", "", "T", "Sum"⟩ "idA" (by decide) rfl rfl (by decide)

/-- C8 counterexample: with `GEMINI_API_KEY` unset, the run still fetches
the RSS feed first (a network call precedes the failed credential check),
the raised error is caught inside `main`, and the process exits 0 — not a
fatal pre-network non-zero exit. -/
theorem C8_counterexample :
    (run_process [("S", [⟨"a", "", "", ""⟩])] ⟨none, false, GenApiResp.noParts, true, true⟩
        (FileState.jsonList [])).2 = 0 ∧
      (main_run [("S", [⟨"a", "", "", ""⟩])] ⟨none, false, GenApiResp.noParts, true, true⟩
        (FileState.jsonList [])).1 =
        [Event.netFetchFeed "S", Event.credCheckGemini false] := by
  decide

/-- C8 (amended): a missing generation credential is detected only inside
`call_gemini_generate_content`, i.e. after the feed (and possibly article)
network fetches: the trace ends with the failed credential check, which is
preceded by the selected source's feed fetch; no generation or publish POST
happens, the seen file is unchanged, and the process still exits 0 because
`main` catches the exception.  (A completed pass always exits 0, as the
second half of the claim states.) -/
theorem C8_missing_key_checked_late (ss : List (String × List Entry)) (c : Collab)
    (file : FileState) (n : String) (e : Entry) (eid : String)
    (hsel : (select_from_sources ss (load_seen_ids file).1).2 = some (n, e, eid))
    (hkey : c.geminiKey = false) :
    (∃ pre, (main_run ss c file).1 = pre ++ [Event.credCheckGemini false] ∧
        Event.netFetchFeed n ∈ pre) ∧
      Event.netGenCall ∉ (main_run ss c file).1 ∧
      Event.netPubCall ∉ (main_run ss c file).1 ∧
      (main_run ss c file).2 = (load_seen_ids file).2.1 ∧
      (run_process ss c file).2 = 0 := by
  have hgen : call_gemini_generate_content c.geminiKey c.genResp =
      ([Event.credCheckGemini false], Except.error GenError.missingApiKey) := by
    rw [hkey]
    exact gen_of_no_key c.genResp
  rcases main_run_cases ss c file with ⟨hS, hEq⟩ | ⟨n2, e2, eid2, hS, hBr⟩
  · rw [hS] at hsel
    cases hsel
  · rw [hsel] at hS
    simp only [Option.some.injEq, Prod.mk.injEq] at hS
    obtain ⟨hn, he, hid⟩ := hS
    subst hn
    subst he
    subst hid
    rcases hBr with ⟨⟨err, hGerr⟩, hEq⟩ | ⟨out, hGok, hPBr⟩
    · have hmemn : Event.netFetchFeed n ∈ (select_from_sources ss (load_seen_ids file).1).1 :=
        (select_from_sources_spec ss _ n e eid hsel).2.2
      refine ⟨?_, ?_, ?_, by rw [hEq], rfl⟩
      · rw [hEq, hgen]
        refine ⟨(load_seen_ids file).2.2 ++ (select_from_sources ss (load_seen_ids file).1).1
          ++ (if e.link = "" then ([] : List Event) else [Event.netFetchArticle e.link]),
          ?_, ?_⟩
        · simp [List.append_assoc]
        · simp only [List.mem_append]
          exact Or.inl (Or.inr hmemn)
      · rw [hEq, hgen]
        intro h
        rcases List.mem_append.mp h with h2 | h2
        · rcases List.mem_append.mp h2 with h3 | h3
          · rcases List.mem_append.mp h3 with h4 | h4
            · exact (load_evs_no_net file).1 h4
            · exact netGenCall_not_in_sel ss _ h4
          · cases art_evs_shape e.link _ h3
        · simp at h2
      · rw [hEq, hgen]
        intro h
        rcases List.mem_append.mp h with h2 | h2
        · rcases List.mem_append.mp h2 with h3 | h3
          · rcases List.mem_append.mp h3 with h4 | h4
            · exact (load_evs_no_net file).2.1 h4
            · exact netPubCall_not_in_sel ss _ h4
          · cases art_evs_shape e.link _ h3
        · simp at h2
    · exfalso
      rw [hgen] at hGok
      cases hGok

/-- Witness for C8 (amended): the concrete missing-key run over a
one-entry feed. -/
theorem C8_witness :
    (∃ pre, (main_run [("S", [⟨"a", "", "", ""⟩])]
        ⟨none, false, GenApiResp.noParts, true, true⟩ (FileState.jsonList ["q"])).1 =
          pre ++ [Event.credCheckGemini false] ∧ Event.netFetchFeed "S" ∈ pre) ∧
      Event.netGenCall ∉ (main_run [("S", [⟨"a", "", "", ""⟩])]
        ⟨none, false, GenApiResp.noParts, true, true⟩ (FileState.jsonList ["q"])).1 ∧
      Event.netPubCall ∉ (main_run [("S", [⟨"a", "", "", ""⟩])]
        ⟨none, false, GenApiResp.noParts, true, true⟩ (FileState.jsonList ["q"])).1 ∧
      (main_run [("S", [⟨"a", "", "", ""⟩])]
        ⟨none, false, GenApiResp.noParts, true, true⟩ (FileState.jsonList ["q"])).2 =
        (load_seen_ids (FileState.jsonList ["q"])).2.1 ∧
      (run_process [("S", [⟨"a", "", "", ""⟩])]
        ⟨none, false, GenApiResp.noParts, true, true⟩ (FileState.jsonList ["q"])).2 = 0 :=
  C8_missing_key_checked_late [("S", [⟨"a", "", "", ""⟩])]
    ⟨none, false, GenApiResp.noParts, true, true⟩ (FileState.jsonList ["q"])
    "S" ⟨"a", "", "", ""⟩ "a" (by decide) rfl
